import Mathlib

/-!
Verification of the pagination-and-advisory engine of the fitness-guide
console application (`main.py`).

Modelling conventions:

* A result record (a Python `dict` coming from the remote API as JSON) is
  modelled as a structure whose fields are all optional; an absent field is
  `none` (a key missing from the dict).  `dict.get(k, d)` becomes
  `Option.getD`, and a bare `dict[k]` access on a missing key (Python
  `KeyError`) or an operation that raises (`ZeroDivisionError` from
  `100 / serving_size`, `TypeError` from `str += None`) is modelled by the
  computation returning `none` at the `Option` level.
* Python numeric values (ints and floats) are modelled as rationals `ℚ`;
  the arithmetic the engine performs is modelled exactly over `ℚ`.
* The persistence layer (`UserData`: the SQLite tables and the calorie
  ledger) is external to this core and is modelled at its interface:
  `saved` is the set of saved exercises as an association list,
  `consumed`/`goal` the calorie ledger, and each mutating call the engine
  makes is additionally recorded in a call trace (`ledger_calls`,
  `save_calls`, `delete_calls`) so that "exactly one call" properties can
  be stated.  The store-internal `round(x, 1)` is not modelled.
* Printing of record fields is presentation; it matters to the model only
  where a missing field makes `display_exercise` / `display_nutrition`
  raise `KeyError`, which is modelled as the render failing (`none`).
-/

namespace SmokiFit

/-- A result record: a JSON object with the fields the application reads.
An absent field is `none`. Numeric values are modelled as `ℚ`. -/
structure Rec where
  name : Option String := none
  type : Option String := none
  muscle : Option String := none
  equipment : Option String := none
  difficulty : Option String := none
  instructions : Option String := none
  calories : Option ℚ := none
  serving_size_g : Option ℚ := none
  fat_total_g : Option ℚ := none
  fat_saturated_g : Option ℚ := none
  protein_g : Option ℚ := none
  sodium_mg : Option ℚ := none
  potassium_mg : Option ℚ := none
  cholesterol_mg : Option ℚ := none
  carbohydrates_total_g : Option ℚ := none
  fiber_g : Option ℚ := none
  sugar_g : Option ℚ := none
deriving DecidableEq, Repr

/-- Python truthiness of the record as a dict: `{}` is falsy, any non-empty
dict is truthy. -/
def Rec.isTruthy (r : Rec) : Bool :=
  r.name.isSome || r.type.isSome || r.muscle.isSome || r.equipment.isSome ||
  r.difficulty.isSome || r.instructions.isSome || r.calories.isSome ||
  r.serving_size_g.isSome || r.fat_total_g.isSome || r.fat_saturated_g.isSome ||
  r.protein_g.isSome || r.sodium_mg.isSome || r.potassium_mg.isSome ||
  r.cholesterol_mg.isSome || r.carbohydrates_total_g.isSome ||
  r.fiber_g.isSome || r.sugar_g.isSome

/-- All fields printed by `display_exercise` via `self.display_data[...]`
(a missing one raises `KeyError`). -/
def Rec.exerciseFieldsPresent (r : Rec) : Bool :=
  r.name.isSome && r.type.isSome && r.muscle.isSome && r.equipment.isSome &&
  r.difficulty.isSome && r.instructions.isSome

/-- All fields printed by `display_nutrition` via `self.display_data[...]`
(a missing one raises `KeyError`). -/
def Rec.nutritionFieldsPresent (r : Rec) : Bool :=
  r.name.isSome && r.calories.isSome && r.serving_size_g.isSome &&
  r.fat_total_g.isSome && r.fat_saturated_g.isSome && r.protein_g.isSome &&
  r.sodium_mg.isSome && r.potassium_mg.isSome && r.cholesterol_mg.isSome &&
  r.carbohydrates_total_g.isSome && r.fiber_g.isSome && r.sugar_g.isSome

/-- Python `str(...)` of an optional string inside an f-string:
`None` prints as `"None"`. -/
def pyStr (o : Option String) : String := o.getD "None"

/-- The per-page nutrition accumulator of `display_page`
(`serving_size_check`, `mindful_food`, `page_calories`, `page_fat`,
`page_protein`, `page_sugar`, lines 444-449). -/
structure Agg where
  serving_size_check : Bool
  mindful_food : String
  page_calories : ℚ
  page_fat : ℚ
  page_protein : ℚ
  page_sugar : ℚ
deriving DecidableEq, Repr

/-- Initial accumulator values set at the top of `display_page`. -/
def Agg.init : Agg :=
  { serving_size_check := true, mindful_food := "", page_calories := 0,
    page_fat := 0, page_protein := 0, page_sugar := 0 }

/-- One iteration of the nutrition-mode loop body of `display_page`
(lines 461-482), for a single record.  `none` models an exception:
`ZeroDivisionError` from `100 / serving_size` when `serving_size_g` is 0,
and `TypeError` from `self.mindful_food += self.display_data.get('name')`
when the name is absent (`str += None`). -/
def aggStep (a : Agg) (r : Rec) : Option Agg :=
  let serving_size : ℚ := r.serving_size_g.getD 100
  if serving_size = 0 then none
  else
    let factor : ℚ := 100 / serving_size
    let calories : ℚ := r.calories.getD 0 * factor
    let upd : Option Agg :=
      if serving_size ≥ 100 ∧ a.serving_size_check = true then
        some a
      else if a.serving_size_check = false then
        if serving_size < 100 ∧ calories > 300 then
          some { a with mindful_food := a.mindful_food ++ (" and " ++ pyStr r.name) }
        else some a
      else
        if serving_size < 100 ∧ calories > 300 then
          match r.name with
          | some n => some { a with serving_size_check := false,
                                    mindful_food := a.mindful_food ++ n }
          | none => none
        else some a
    match upd with
    | none => none
    | some b =>
      some { b with
        page_calories := b.page_calories + calories,
        page_fat := b.page_fat + r.fat_total_g.getD 0 * factor,
        page_protein := b.page_protein + r.protein_g.getD 0 * factor,
        page_sugar := b.page_sugar + r.sugar_g.getD 0 * factor }

/-- The whole nutrition aggregation of `display_page` over a page's records,
in page order (the pure PageAggregator). -/
def aggregatePage (page : List Rec) : Option Agg :=
  page.foldlM aggStep Agg.init

/- Advice message fragments, verbatim from `nutritional_advice`. -/

def adv_low : String :=
  "Low-calorie: Suitable for a healthy diet. Consider incorporating a variety of nutrient-dense foods."

def adv_balanced : String :=
  "Moderate-calorie: Balanced nutritional content. Enjoy in moderation as part of a well-rounded diet."

def adv_optimize : String :=
  "Moderate-calorie: Consider optimizing your nutritional balance."

def adv_fat_low : String :=
  " Increase healthy fats for sustained energy."

def adv_fat_high : String :=
  " Limit saturated fats for heart health."

def adv_protein : String :=
  " Include more protein sources for muscle maintenance."

def adv_sugar : String :=
  " Be mindful of added sugars for overall well-being."

def adv_high : String :=
  "High-calorie: Consider consuming in moderation. Check nutritional values for a balanced and varied diet."

/-- The mindful-food warning appended when `serving_size_check` is false. -/
def mindfulMsg (m : String) : String :=
  "\nBe mindful of " ++ m ++ ". Small amount occasionally can be okay, but try to focus on a balanced diet overall."

/-- `Pagination.nutritional_advice` (lines 485-515), as a pure function of
the page aggregate. -/
def nutritional_advice (a : Agg) : String :=
  if a.page_calories < 100 then
    adv_low
  else if 100 ≤ a.page_calories ∧ a.page_calories ≤ 300 then
    if 10 ≤ a.page_fat ∧ a.page_fat ≤ 20 ∧ 5 ≤ a.page_protein ∧
       a.page_protein ≤ 20 ∧ a.page_sugar ≤ 10 then
      adv_balanced
    else
      let advice := adv_optimize
      let advice := if a.page_fat < 10 then advice ++ adv_fat_low
                    else if a.page_fat > 20 then advice ++ adv_fat_high
                    else advice
      let advice := if a.page_protein < 5 then advice ++ adv_protein else advice
      let advice := if a.page_sugar > 10 then advice ++ adv_sugar else advice
      if a.serving_size_check = false then advice ++ mindfulMsg a.mindful_food
      else advice
  else
    if a.serving_size_check = false then adv_high ++ mindfulMsg a.mindful_food
    else adv_high

/-- `total_pages` exactly as computed on line 559:
`len(data) // page_size + (len(data) % page_size > 0)`. -/
def computeTotalPages (L ps : ℕ) : ℕ :=
  L / ps + (if L % ps > 0 then 1 else 0)

/-- Spec-side definition: `ceil(L / ps)` as stated in the spec
("total_pages = ceil(len(ResultSet)/page_size)"). -/
def ceilNat (L ps : ℕ) : ℕ := (L + ps - 1) / ps

/-- The page slice of lines 440-442:
`data[(page-1)*page_size : (page-1)*page_size + page_size]`. -/
def pageSliceAt (data : List Rec) (page ps : ℕ) : List Rec :=
  (data.drop ((page - 1) * ps)).take ps

/-- The pagination mode tag. -/
inductive Mode where
  | exercise
  | nutrition
deriving DecidableEq, Repr

/-- One iteration of the `for data in page_data` loop of `display_page`
(lines 455-483): set `display_data` to the record, in nutrition mode run the
aggregation, then print the record (`display_exercise` /
`display_nutrition`), whose bare `dict[...]` accesses raise `KeyError`
(modelled as `none`) when a printed field is absent. -/
def displayRecStep (mode : Mode) (st : Option Rec × Agg) (r : Rec) :
    Option (Option Rec × Agg) :=
  match mode with
  | Mode.exercise =>
    if r.exerciseFieldsPresent then some (some r, st.2) else none
  | Mode.nutrition =>
    match aggStep st.2 r with
    | none => none
    | some a => if r.nutritionFieldsPresent then some (some r, a) else none

/-- The whole record loop of `display_page` over a page: starts from
`display_data = False` (the page-empty marker) and the freshly initialized
accumulator. -/
def displayPage (mode : Mode) (page : List Rec) : Option (Option Rec × Agg) :=
  page.foldlM (displayRecStep mode) (none, Agg.init)

/-- The pagination session state (`Pagination`), together with the consumed
`UserData` store modelled at its interface plus a trace of the mutating
store calls the engine makes. -/
structure Session where
  data : List Rec
  mode : Mode
  page_size : ℕ
  current_page : ℕ
  total_pages : ℕ
  eaten_pages : List ℕ
  display_data : Option Rec
  agg : Agg
  saved : List (String × Rec)
  consumed : ℚ
  goal : ℚ
  ledger_calls : List ℚ
  save_calls : List (String × Rec)
  delete_calls : List String
deriving DecidableEq, Repr

/-- The current page slice (`display_page`, lines 440-442). -/
def Session.pageSlice (s : Session) : List Rec :=
  pageSliceAt s.data s.current_page s.page_size

/-- `display_page` acting on the session: recompute the page aggregate and
`display_data`; `none` models an uncaught exception during display. -/
def Session.render (s : Session) : Option Session :=
  match displayPage s.mode s.pageSlice with
  | none => none
  | some dr => some { s with display_data := dr.1, agg := dr.2 }

/-- `UserData.is_saved`: `COUNT(*) > 0` on `SavedExercises`. -/
def isSaved (st : List (String × Rec)) (n : String) : Bool :=
  st.any (fun p => p.1 == n)

/-- `UserData.add_save`: `INSERT OR REPLACE` keyed on the exercise name. -/
def addSave (st : List (String × Rec)) (n : String) (r : Rec) :
    List (String × Rec) :=
  (n, r) :: st.filter (fun p => p.1 != n)

/-- `UserData.delete_save`: `DELETE ... WHERE ExerciseName = ?`. -/
def deleteSave (st : List (String × Rec)) (n : String) : List (String × Rec) :=
  st.filter (fun p => p.1 != n)

/-- `Pagination.paginate` entry (lines 558-563): store the data, compute
`total_pages` (line 559), set `current_page = 1`, render page 1, and reset
`eaten_pages`. -/
def paginateStart (data : List Rec) (mode : Mode) (page_size : ℕ)
    (saved : List (String × Rec)) (consumed goal : ℚ) : Option Session :=
  Session.render
    { data := data, mode := mode, page_size := page_size,
      current_page := 1,
      total_pages := computeTotalPages data.length page_size,
      eaten_pages := [], display_data := none, agg := Agg.init,
      saved := saved, consumed := consumed, goal := goal,
      ledger_calls := [], save_calls := [], delete_calls := [] }

/-- The commands of the interactive loop; `other` is any input that matches
none of the fixed single-letter commands. -/
inductive Cmd where
  | n
  | p
  | s
  | u
  | e
  | m
  | other
deriving DecidableEq, Repr

/-- The message the loop body reports for one command. -/
inductive Msg where
  | rendered
  | noNext
  | noPrev
  | alreadySaved
  | savedOk
  | notSaved
  | unsavedOk
  | eaten (amount : ℚ) (underGoal : Bool)
  | alreadyEaten
  | backToMenu
  | invalid
deriving DecidableEq, Repr

/-- One iteration of the command loop of `Pagination.paginate`
(lines 564-607).  `none` models an uncaught exception (a failed render, or
a `KeyError` on `self.display_data['name']`). -/
def step (st : Session) (c : Cmd) : Option (Session × Msg) :=
  match c with
  | Cmd.n =>
    if st.current_page < st.total_pages then
      match Session.render { st with current_page := st.current_page + 1 } with
      | none => none
      | some st' => some (st', Msg.rendered)
    else some (st, Msg.noNext)
  | Cmd.p =>
    if st.current_page > 1 then
      match Session.render { st with current_page := st.current_page - 1 } with
      | none => none
      | some st' => some (st', Msg.rendered)
    else some (st, Msg.noPrev)
  | Cmd.s =>
    match st.display_data with
    | some r =>
      if st.mode = Mode.exercise ∧ r.isTruthy = true then
        match r.name with
        | some n =>
          if isSaved st.saved n then some (st, Msg.alreadySaved)
          else some ({ st with saved := addSave st.saved n r,
                               save_calls := st.save_calls ++ [(n, r)] },
                     Msg.savedOk)
        | none => none
      else some (st, Msg.invalid)
    | none => some (st, Msg.invalid)
  | Cmd.u =>
    match st.display_data with
    | some r =>
      if st.mode = Mode.exercise ∧ r.isTruthy = true then
        match r.name with
        | some n =>
          if isSaved st.saved n then
            some ({ st with saved := deleteSave st.saved n,
                            delete_calls := st.delete_calls ++ [n] },
                  Msg.unsavedOk)
          else some (st, Msg.notSaved)
        | none => none
      else some (st, Msg.invalid)
    | none => some (st, Msg.invalid)
  | Cmd.e =>
    match st.display_data with
    | some r =>
      if st.mode = Mode.nutrition ∧ r.isTruthy = true then
        if st.eaten_pages.contains st.current_page then
          some (st, Msg.alreadyEaten)
        else
          some ({ st with consumed := st.consumed + st.agg.page_calories,
                          ledger_calls := st.ledger_calls ++ [st.agg.page_calories],
                          eaten_pages := st.eaten_pages ++ [st.current_page] },
                Msg.eaten st.agg.page_calories
                  (decide (st.consumed + st.agg.page_calories < st.goal)))
      else some (st, Msg.invalid)
    | none => some (st, Msg.invalid)
  | Cmd.m => some (st, Msg.backToMenu)
  | Cmd.other => some (st, Msg.invalid)

/-- Claim-side description of the mindful-food scan (C2): a left fold whose
step acts only on records with `serving_size_g < 100` and normalized
calories > 300, flipping the flag and setting the name the first time and
appending `" and " ++ name` afterwards. -/
def claimStep (st : Bool × String) (r : Rec) : Bool × String :=
  let serving_size : ℚ := r.serving_size_g.getD 100
  let calories : ℚ := r.calories.getD 0 * (100 / serving_size)
  if serving_size < 100 ∧ calories > 300 then
    if st.1 = true then (false, pyStr r.name)
    else (st.1, st.2 ++ (" and " ++ pyStr r.name))
  else st

/-- Claim-side advice table (C3): the base message for the calorie band and
then, independently, every applicable clause appended. -/
def adviceSpec (a : Agg) : String :=
  if a.page_calories < 100 then
    adv_low
  else if 100 ≤ a.page_calories ∧ a.page_calories ≤ 300 then
    if 10 ≤ a.page_fat ∧ a.page_fat ≤ 20 ∧ 5 ≤ a.page_protein ∧
       a.page_protein ≤ 20 ∧ a.page_sugar ≤ 10 then
      adv_balanced
    else
      adv_optimize
        ++ (if a.page_fat < 10 then adv_fat_low else "")
        ++ (if a.page_fat > 20 then adv_fat_high else "")
        ++ (if a.page_protein < 5 then adv_protein else "")
        ++ (if a.page_sugar > 10 then adv_sugar else "")
        ++ (if a.serving_size_check = false then mindfulMsg a.mindful_food else "")
  else
    adv_high ++ (if a.serving_size_check = false then mindfulMsg a.mindful_food else "")

/-- Substituting the documented defaults for the numeric fields the
aggregation reads (`serving_size_g` → 100, the others → 0). -/
def normalizeRec (r : Rec) : Rec :=
  { r with
    serving_size_g := some (r.serving_size_g.getD 100),
    calories := some (r.calories.getD 0),
    fat_total_g := some (r.fat_total_g.getD 0),
    protein_g := some (r.protein_g.getD 0),
    sugar_g := some (r.sugar_g.getD 0) }

/-- Well-formedness of a record for the given mode: every field the page
display prints is present, and in nutrition mode the effective serving size
is non-zero (so `100 / serving_size` cannot raise). -/
def recOK (mode : Mode) (r : Rec) : Bool :=
  match mode with
  | Mode.exercise => r.exerciseFieldsPresent
  | Mode.nutrition =>
    r.nutritionFieldsPresent && decide (r.serving_size_g.getD 100 ≠ 0)

/- Concrete fixtures used by counterexamples and witnesses. -/

/-- The spec example record A: `{name:"A", calories:400, serving_size_g:50}`. -/
def recA : Rec := { name := some "A", calories := some 400, serving_size_g := some 50 }

/-- The spec example record B: `{name:"B", calories:200, serving_size_g:100}`. -/
def recB : Rec := { name := some "B", calories := some 200, serving_size_g := some 100 }

/-- A small/dense record whose name is the empty string. -/
def cexEmptyName : Rec :=
  { name := some "", calories := some 400, serving_size_g := some 50 }

/-- A record whose `serving_size_g` is present but zero: `100 / 0` raises
`ZeroDivisionError` in `display_page`. -/
def cexZeroServing : Rec :=
  { name := some "Z", calories := some 10, serving_size_g := some 0 }

/-- A fully populated exercise record. -/
def recSquat : Rec :=
  { name := some "Squat", type := some "strength", muscle := some "quadriceps",
    equipment := some "barbell", difficulty := some "beginner",
    instructions := some "Squat down and stand back up." }

/-- A list of 7 records (the spec example `page_size=3, result length=7`). -/
def data7 : List Rec := List.replicate 7 {}

/-- The aggregate of the page `[recA, recB]`. -/
def aggAB : Agg :=
  { serving_size_check := false, mindful_food := "A", page_calories := 1000,
    page_fat := 0, page_protein := 0, page_sugar := 0 }

/-- A concrete exercise-mode session whose displayed record is already
saved. -/
def wEx : Session :=
  { data := [recSquat], mode := Mode.exercise, page_size := 1,
    current_page := 1, total_pages := 1, eaten_pages := [],
    display_data := some recSquat, agg := Agg.init,
    saved := [("Squat", recSquat)], consumed := 0, goal := 2000,
    ledger_calls := [], save_calls := [], delete_calls := [] }

/-- A concrete nutrition-mode session on the page `[recA, recB]`. -/
def wNut : Session :=
  { data := [recA, recB], mode := Mode.nutrition, page_size := 2,
    current_page := 1, total_pages := 1, eaten_pages := [],
    display_data := some recB, agg := aggAB,
    saved := [], consumed := 0, goal := 2000,
    ledger_calls := [], save_calls := [], delete_calls := [] }


theorem str_append_eq_empty_iff (s t : String) : s ++ t = "" ↔ s = "" ∧ t = "" := by
  constructor
  · intro h
    have hd := congrArg String.data h
    simp [String.data_append] at hd
    exact ⟨String.ext hd.1, String.ext hd.2⟩
  · rintro ⟨rfl, rfl⟩; rfl

theorem getLast?_cons_or : ∀ (l : List α) (a : α),
    (a :: l).getLast? = l.getLast?.or (some a)
  | [], _ => rfl
  | b :: t, a => by
      rw [List.getLast?_cons_cons, getLast?_cons_or t b]
      cases t.getLast? <;> rfl

/-- Everything the claims need about one aggregation step. -/
theorem aggStep_master (a a' : Agg) (r : Rec) (h : aggStep a r = some a') :
    (a'.page_calories
        = a.page_calories + r.calories.getD 0 * (100 / r.serving_size_g.getD 100) ∧
     a'.page_fat
        = a.page_fat + r.fat_total_g.getD 0 * (100 / r.serving_size_g.getD 100) ∧
     a'.page_protein
        = a.page_protein + r.protein_g.getD 0 * (100 / r.serving_size_g.getD 100) ∧
     a'.page_sugar
        = a.page_sugar + r.sugar_g.getD 0 * (100 / r.serving_size_g.getD 100)) ∧
    ((a.serving_size_check = true → a.mindful_food = "") →
      ((a'.serving_size_check, a'.mindful_food)
          = claimStep (a.serving_size_check, a.mindful_food) r ∧
       (a'.serving_size_check = true → a'.mindful_food = ""))) ∧
    (a.mindful_food ≠ "" → a'.mindful_food ≠ "") ∧
    (r.name ≠ some "" →
      (a.serving_size_check = false → a.mindful_food ≠ "") →
      (a'.serving_size_check = false → a'.mindful_food ≠ "")) := by
  by_cases h0 : r.serving_size_g.getD 100 = 0
  · simp [aggStep, h0] at h
  · by_cases h1 : (100 : ℚ) ≤ r.serving_size_g.getD 100
    · have h1' : ¬(r.serving_size_g.getD 100 < 100) := not_lt.mpr h1
      by_cases h2 : a.serving_size_check = true
      · -- serving size ≥ 100, flag still true: no change
        simp only [aggStep, h0, if_false, ge_iff_le, h1, h2, and_self, if_true] at h
        injection h with h
        subst h
        refine ⟨⟨rfl, rfl, rfl, rfl⟩, ?_, ?_, ?_⟩
        · intro hinv
          simp [claimStep, h1', h2, hinv h2]
        · intro hne; exact hne
        · intro _ _ hc
          simp [h2] at hc
      · -- serving size ≥ 100, flag already false: inner condition fails
        have h2' : a.serving_size_check = false := by
          cases hc : a.serving_size_check
          · rfl
          · exact absurd hc h2
        simp only [aggStep, h0, if_false, ge_iff_le, h1, h2, h2', and_true, and_false,
          if_true, if_false, eq_self_iff_true, h1'] at h
        injection h with h
        subst h
        refine ⟨⟨rfl, rfl, rfl, rfl⟩, ?_, ?_, ?_⟩
        · intro hinv
          simp [claimStep, h1', h2']
        · intro hne; exact hne
        · intro _ hq _
          exact hq h2'
    · -- serving size < 100
      have h1'' : r.serving_size_g.getD 100 < 100 := not_le.mp h1
      by_cases h3 : r.calories.getD 0 * (100 / r.serving_size_g.getD 100) > 300
      · by_cases h2 : a.serving_size_check = true
        · -- first qualifying record: flip and set name
          cases hn : r.name with
          | none =>
            simp [aggStep, h0, h1, h2, h1'', h3, hn] at h
          | some n =>
            simp only [aggStep, h0, if_false, ge_iff_le, h1, h2, false_and, and_true,
              Bool.true_eq_false, if_false, h1'', h3, and_self, if_true, hn] at h
            injection h with h
            subst h
            refine ⟨⟨rfl, rfl, rfl, rfl⟩, ?_, ?_, ?_⟩
            · intro hinv
              constructor
              · simp [claimStep, h1'', h3, h2, hinv h2, pyStr, hn]
              · intro hc; simp at hc
            · intro hne
              simp only [ne_eq, str_append_eq_empty_iff, not_and]
              intro hm; exact absurd hm hne
            · intro hname _ _
              have hn' : n ≠ "" := by
                intro he; exact hname (by rw [he])
              simp only [ne_eq, str_append_eq_empty_iff, not_and]
              intro _; exact hn'
        · -- flag already false: append " and name"
          have h2' : a.serving_size_check = false := by
            cases hc : a.serving_size_check
            · rfl
            · exact absurd hc h2
          simp only [aggStep, h0, if_false, ge_iff_le, h1, h2, h2', false_and, and_true,
            and_false, if_true, if_false, h1'', h3, and_self] at h
          injection h with h
          subst h
          refine ⟨⟨rfl, rfl, rfl, rfl⟩, ?_, ?_, ?_⟩
          · intro hinv
            constructor
            · simp [claimStep, h1'', h3, h2']
            · intro hc; simp at hc
          · intro hne
            simp only [ne_eq, str_append_eq_empty_iff, not_and]
            intro hm; exact absurd hm hne
          · intro _ hq _
            have := hq h2'
            simp only [ne_eq, str_append_eq_empty_iff, not_and]
            intro hm; exact absurd hm this
      · -- calories not over 300: no change in either flag state
        by_cases h2 : a.serving_size_check = true
        · simp only [aggStep, h0, if_false, ge_iff_le, h1, h2, false_and, and_true,
            Bool.true_eq_false, if_false, h1'', h3, and_false, if_true] at h
          injection h with h
          subst h
          refine ⟨⟨rfl, rfl, rfl, rfl⟩, ?_, ?_, ?_⟩
          · intro hinv
            simp [claimStep, h1'', h3, h2, hinv h2]
          · intro hne; exact hne
          · intro _ _ hc
            simp [h2] at hc
        · have h2' : a.serving_size_check = false := by
            cases hc : a.serving_size_check
            · rfl
            · exact absurd hc h2
          simp only [aggStep, h0, if_false, ge_iff_le, h1, h2, h2', false_and, and_true,
            and_false, if_true, if_false, h1'', h3] at h
          injection h with h
          subst h
          refine ⟨⟨rfl, rfl, rfl, rfl⟩, ?_, ?_, ?_⟩
          · intro hinv
            simp [claimStep, h1'', h3, h2']
          · intro hne; exact hne
          · intro _ hq _
            exact hq h2'

/-- The per-page fold of `aggStep`, related to the claim-side fold and the
per-100g sums. -/
theorem agg_fold_master (page : List Rec) : ∀ (a₀ a : Agg),
    page.foldlM aggStep a₀ = some a →
    ((a.page_calories = a₀.page_calories
        + (page.map (fun r => r.calories.getD 0 * (100 / r.serving_size_g.getD 100))).sum ∧
      a.page_fat = a₀.page_fat
        + (page.map (fun r => r.fat_total_g.getD 0 * (100 / r.serving_size_g.getD 100))).sum ∧
      a.page_protein = a₀.page_protein
        + (page.map (fun r => r.protein_g.getD 0 * (100 / r.serving_size_g.getD 100))).sum ∧
      a.page_sugar = a₀.page_sugar
        + (page.map (fun r => r.sugar_g.getD 0 * (100 / r.serving_size_g.getD 100))).sum) ∧
     ((a₀.serving_size_check = true → a₀.mindful_food = "") →
       ((a.serving_size_check, a.mindful_food)
           = page.foldl claimStep (a₀.serving_size_check, a₀.mindful_food) ∧
        (a.serving_size_check = true → a.mindful_food = ""))) ∧
     (a₀.mindful_food ≠ "" → a.mindful_food ≠ "") ∧
     ((∀ r ∈ page, r.name ≠ some "") →
       (a₀.serving_size_check = false → a₀.mindful_food ≠ "") →
       (a.serving_size_check = false → a.mindful_food ≠ ""))) := by
  induction page with
  | nil =>
    intro a₀ a h
    simp only [List.foldlM_nil, pure, Option.some.injEq] at h
    subst h
    refine ⟨⟨by simp, by simp, by simp, by simp⟩, ?_, fun hne => hne, fun _ hq => hq⟩
    intro hinv
    exact ⟨by simp [List.foldl_nil], hinv⟩
  | cons r t ih =>
    intro a₀ a h
    simp only [List.foldlM_cons] at h
    cases hs : aggStep a₀ r with
    | none => rw [hs] at h; cases h
    | some a₁ =>
      rw [hs] at h
      simp only [Option.bind_eq_bind, Option.some_bind] at h
      obtain ⟨hsum1, hscan1, hgrow1, hq1⟩ := aggStep_master a₀ a₁ r hs
      obtain ⟨hsum2, hscan2, hgrow2, hq2⟩ := ih a₁ a h
      refine ⟨?_, ?_, ?_, ?_⟩
      · obtain ⟨hc1, hf1, hp1, hs1⟩ := hsum1
        obtain ⟨hc2, hf2, hp2, hs2⟩ := hsum2
        refine ⟨?_, ?_, ?_, ?_⟩ <;>
          simp only [List.map_cons, List.sum_cons, hc2, hf2, hp2, hs2, hc1, hf1, hp1, hs1] <;>
          ring
      · intro hinv
        obtain ⟨hpair, hinv1⟩ := hscan1 hinv
        obtain ⟨hpair2, hinv2⟩ := hscan2 hinv1
        refine ⟨?_, hinv2⟩
        rw [List.foldl_cons, ← hpair, hpair2]
      · intro hne
        exact hgrow2 (hgrow1 hne)
      · intro hnames hq0
        refine hq2 (fun x hx => hnames x (List.mem_cons_of_mem _ hx))
          (hq1 (hnames r (List.mem_cons_self r t)) hq0)

/-- A record with non-zero effective serving size and a present name cannot
make the aggregation step raise. -/
theorem aggStep_isSome (a : Agg) (r : Rec)
    (hss : r.serving_size_g.getD 100 ≠ 0) (hn : r.name.isSome = true) :
    (aggStep a r).isSome = true := by
  cases hname : r.name with
  | none => rw [hname] at hn; cases hn
  | some n =>
    simp only [aggStep, hss, if_false, hname]
    split_ifs <;> simp

/-- Folding the aggregation over well-behaved records cannot raise. -/
theorem agg_fold_isSome (page : List Rec) :
    ∀ (a₀ : Agg),
    (∀ r ∈ page, r.serving_size_g.getD 100 ≠ 0 ∧ r.name.isSome = true) →
    (page.foldlM aggStep a₀).isSome = true := by
  induction page with
  | nil => intro a₀ _; simp [List.foldlM_nil, pure]
  | cons r t ih =>
    intro a₀ hrs
    obtain ⟨hss, hn⟩ := hrs r (List.mem_cons_self r t)
    have h1 := aggStep_isSome a₀ r hss hn
    cases hs : aggStep a₀ r with
    | none => rw [hs] at h1; cases h1
    | some a₁ =>
      simp only [List.foldlM_cons, hs, Option.bind_eq_bind, Option.some_bind]
      exact ih a₁ (fun x hx => hrs x (List.mem_cons_of_mem _ hx))

/-- Each loop iteration of `display_page` sets `display_data` to the record
it displays. -/
theorem displayRecStep_fst (mode : Mode) (st st' : Option Rec × Agg) (r : Rec)
    (h : displayRecStep mode st r = some st') : st'.1 = some r := by
  cases mode with
  | exercise =>
    simp only [displayRecStep] at h
    split_ifs at h
    injection h with h
    subst h
    rfl
  | nutrition =>
    simp only [displayRecStep] at h
    cases ha : aggStep st.2 r with
    | none => rw [ha] at h; cases h
    | some a =>
      rw [ha] at h
      split_ifs at h
      injection h with h
      subst h
      rfl

/-- After the record loop, `display_data` is the last record of the page
(or the starting value on an empty page). -/
theorem displayPage_fold_last (page : List Rec) :
    ∀ (mode : Mode) (st res : Option Rec × Agg),
    page.foldlM (displayRecStep mode) st = some res →
    res.1 = page.getLast?.or st.1 := by
  induction page with
  | nil =>
    intro mode st res h
    simp only [List.foldlM_nil, pure, Option.some.injEq] at h
    subst h
    rfl
  | cons r t ih =>
    intro mode st res h
    simp only [List.foldlM_cons] at h
    cases hs : displayRecStep mode st r with
    | none => rw [hs] at h; cases h
    | some st₁ =>
      rw [hs] at h
      simp only [Option.bind_eq_bind, Option.some_bind] at h
      have h1 := displayRecStep_fst mode st st₁ r hs
      have h2 := ih mode st₁ res h
      rw [h2, h1, getLast?_cons_or]
      cases t.getLast? <;> rfl

/-- A well-formed record cannot make a display-loop iteration raise. -/
theorem displayRecStep_isSome (mode : Mode) (st : Option Rec × Agg) (r : Rec)
    (h : recOK mode r = true) : (displayRecStep mode st r).isSome = true := by
  cases mode with
  | exercise =>
    simp only [recOK] at h
    simp [displayRecStep, h]
  | nutrition =>
    simp only [recOK, Bool.and_eq_true, decide_eq_true_eq] at h
    obtain ⟨hfields, hss⟩ := h
    have hn : r.name.isSome = true := by
      simp only [Rec.nutritionFieldsPresent, Bool.and_eq_true] at hfields
      exact hfields.1.1.1.1.1.1.1.1.1.1.1
    have h1 := aggStep_isSome st.2 r hss hn
    cases ha : aggStep st.2 r with
    | none => rw [ha] at h1; cases h1
    | some a => simp [displayRecStep, ha, hfields]

/-- The whole display loop succeeds on a page of well-formed records. -/
theorem displayPage_fold_isSome (page : List Rec) :
    ∀ (mode : Mode) (st : Option Rec × Agg),
    (∀ r ∈ page, recOK mode r = true) →
    (page.foldlM (displayRecStep mode) st).isSome = true := by
  induction page with
  | nil => intro mode st _; simp [List.foldlM_nil, pure]
  | cons r t ih =>
    intro mode st hrs
    have h1 := displayRecStep_isSome mode st r (hrs r (List.mem_cons_self r t))
    cases hs : displayRecStep mode st r with
    | none => rw [hs] at h1; cases h1
    | some st₁ =>
      simp only [List.foldlM_cons, hs, Option.bind_eq_bind, Option.some_bind]
      exact ih mode st₁ (fun x hx => hrs x (List.mem_cons_of_mem _ hx))

/-- Every record of the current page slice is a record of the result set. -/
theorem pageSlice_subset (s : Session) : s.pageSlice ⊆ s.data := by
  intro x hx
  exact List.drop_subset _ _ (List.take_subset _ _ hx)

/-- `display_page` changes only `display_data` and the page aggregate. -/
theorem render_proj (s s' : Session) (h : Session.render s = some s') :
    s'.data = s.data ∧ s'.mode = s.mode ∧ s'.page_size = s.page_size ∧
    s'.current_page = s.current_page ∧ s'.total_pages = s.total_pages ∧
    s'.eaten_pages = s.eaten_pages ∧ s'.saved = s.saved ∧
    s'.consumed = s.consumed ∧ s'.goal = s.goal ∧
    s'.ledger_calls = s.ledger_calls ∧ s'.save_calls = s.save_calls ∧
    s'.delete_calls = s.delete_calls := by
  simp only [Session.render] at h
  cases hd : displayPage s.mode s.pageSlice with
  | none => rw [hd] at h; cases h
  | some dr =>
    rw [hd] at h
    injection h with h
    subst h
    exact ⟨rfl, rfl, rfl, rfl, rfl, rfl, rfl, rfl, rfl, rfl, rfl, rfl⟩

/-- A successful render sets `display_data` to the last record of the
current page slice. -/
theorem render_display_data (s s' : Session) (h : Session.render s = some s') :
    s'.display_data = s.pageSlice.getLast? := by
  simp only [Session.render] at h
  cases hd : displayPage s.mode s.pageSlice with
  | none => rw [hd] at h; cases h
  | some dr =>
    rw [hd] at h
    injection h with h
    subst h
    have := displayPage_fold_last s.pageSlice s.mode (none, Agg.init) dr hd
    simpa using this

/-- Rendering a page of well-formed records succeeds. -/
theorem render_isSome (s : Session)
    (hdata : ∀ r ∈ s.data, recOK s.mode r = true) :
    (Session.render s).isSome = true := by
  have h := displayPage_fold_isSome s.pageSlice s.mode (none, Agg.init)
    (fun r hr => hdata r (pageSlice_subset s hr))
  simp only [Session.render]
  cases hd : displayPage s.mode s.pageSlice with
  | none => rw [displayPage] at hd; rw [hd] at h; cases h
  | some dr => rfl

/-- C1 (counterexample): for an empty result set (`L = 0`, any page size)
line 559 computes `total_pages = 0`, not the claimed
`max(1, ceil(L/page_size)) = 1`. -/
theorem C1_total_pages_counterexample :
    computeTotalPages 0 1 = 0 ∧ max 1 (ceilNat 0 1) = 1 ∧
    computeTotalPages 0 1 ≠ max 1 (ceilNat 0 1) := by
  decide

/-- C1 (amended): for page_size in \{1,2,3\}, `paginate` computes
`total_pages = ceil(L/page_size)`; for a non-empty result set this equals
`max(1, ceil(L/page_size))` and the last page slice has
`L - (total_pages-1)*page_size` records, while for `L = 0` it is `0`
(not 1) and the rendered page slice is empty. -/
theorem C1_total_pages_amended (data : List Rec) (ps : ℕ)
    (hps : 1 ≤ ps ∧ ps ≤ 3) :
    computeTotalPages data.length ps = ceilNat data.length ps ∧
    (0 < data.length →
      computeTotalPages data.length ps = max 1 (ceilNat data.length ps) ∧
      (pageSliceAt data (computeTotalPages data.length ps) ps).length
        = data.length - (computeTotalPages data.length ps - 1) * ps) ∧
    (data.length = 0 →
      computeTotalPages data.length ps = 0 ∧
      (pageSliceAt data 1 ps).length = 0) := by
  obtain ⟨hl, hr⟩ := hps
  have hslice : ∀ page, (pageSliceAt data page ps).length
      = min ps (data.length - (page - 1) * ps) := by
    intro page; simp [pageSliceAt]
  refine ⟨?_, fun hpos => ⟨?_, ?_⟩, fun hzero => ⟨?_, ?_⟩⟩ <;>
    simp only [hslice, computeTotalPages, ceilNat] <;>
    interval_cases ps <;> (try split_ifs) <;> omega

/-- C1 (witness): the spec example, result length 7 with page size 3:
total pages 3 and a final page of one record. -/
theorem C1_total_pages_witness :
    computeTotalPages data7.length 3 = ceilNat data7.length 3 ∧
    (0 < data7.length →
      computeTotalPages data7.length 3 = max 1 (ceilNat data7.length 3) ∧
      (pageSliceAt data7 (computeTotalPages data7.length 3) 3).length
        = data7.length - (computeTotalPages data7.length 3 - 1) * 3) ∧
    (data7.length = 0 →
      computeTotalPages data7.length 3 = 0 ∧
      (pageSliceAt data7 1 3).length = 0) :=
  C1_total_pages_amended data7 3 (by decide)

/-- C2 (counterexample): a single qualifying record whose name is the empty
string ends the scan with `serving_size_check = false` while `mindful_food`
is empty, refuting the claimed equivalence between the two. -/
theorem C2_scan_counterexample :
    (aggregatePage [cexEmptyName]).map
      (fun a => (a.serving_size_check, a.mindful_food)) = some (false, "") := by
  norm_num [aggregatePage, List.foldlM, aggStep, Agg.init, cexEmptyName, pyStr]

/-- C2 (amended): whenever the page scan completes, it equals the claimed
left fold (flip-and-set on the first qualifying record, append
`" and " ++ name` on later ones, unchanged otherwise); a non-empty
`mindful_food` always means `serving_size_check = false`, and the converse
holds provided no record carries the empty string as its name. -/
theorem C2_scan_amended :
    (∀ (page : List Rec) (a : Agg), aggregatePage page = some a →
      (a.serving_size_check, a.mindful_food) = page.foldl claimStep (true, "")) ∧
    (∀ (page : List Rec) (a : Agg), aggregatePage page = some a →
      a.mindful_food ≠ "" → a.serving_size_check = false) ∧
    (∀ (page : List Rec) (a : Agg), aggregatePage page = some a →
      (∀ r ∈ page, r.name ≠ some "") →
      a.serving_size_check = false → a.mindful_food ≠ "") := by
  refine ⟨?_, ?_, ?_⟩
  · intro page a h
    have hm := agg_fold_master page Agg.init a h
    exact (hm.2.1 (fun _ => rfl)).1
  · intro page a h hne
    have hm := agg_fold_master page Agg.init a h
    have hinv := (hm.2.1 (fun _ => rfl)).2
    cases hc : a.serving_size_check
    · rfl
    · exact absurd (hinv hc) hne
  · intro page a h hnames hc
    have hm := agg_fold_master page Agg.init a h
    exact hm.2.2.2 hnames (fun hfalse => by cases hfalse) hc

/-- C2 (witness): on the page `[A, B]` the scan completes and matches the
claimed fold. -/
theorem C2_scan_witness :
    (aggAB.serving_size_check, aggAB.mindful_food)
      = [recA, recB].foldl claimStep (true, "") :=
  C2_scan_amended.1 [recA, recB] aggAB
    (by norm_num [aggregatePage, List.foldlM, aggStep, Agg.init, recA, recB, pyStr, aggAB])

/-- C3: `nutritional_advice` follows the claimed threshold table exactly:
low-calorie message alone below 100; in `[100, 300]` the balanced message
under the fat/protein/sugar window and otherwise the optimize base with
each applicable clause appended (plus the mindful-food warning when the
flag is down); above 300 the high-calorie message plus the mindful-food
warning when the flag is down. -/
theorem C3_advice_table (a : Agg) : nutritional_advice a = adviceSpec a := by
  unfold nutritional_advice adviceSpec
  split_ifs <;> first
    | rfl
    | (exfalso ; linarith)

/-- Substituting the documented defaults into a record does not change the
aggregation step. -/
theorem aggStep_normalize (a : Agg) (r : Rec) :
    aggStep a (normalizeRec r) = aggStep a r := by
  simp [aggStep, normalizeRec]

/-- Substituting the documented defaults does not change the fold. -/
theorem agg_fold_normalize (page : List Rec) : ∀ (a₀ : Agg),
    (page.map normalizeRec).foldlM aggStep a₀ = page.foldlM aggStep a₀ := by
  induction page with
  | nil => intro a₀; rfl
  | cons r t ih =>
    intro a₀
    simp only [List.map_cons, List.foldlM_cons, aggStep_normalize]
    cases aggStep a₀ r with
    | none => rfl
    | some a₁ => simp only [Option.bind_eq_bind, Option.some_bind, ih]

/-- C5: page totals are per-100g-equivalent sums (each field scaled by
`factor = 100/serving_size_g` before accumulation), and on the page
`[A, B]` of the spec example the aggregate calories are 1000, the scan
flags record A, and the advice is the high-calorie branch with the
mindful-food warning naming A. -/
theorem C5_normalization :
    (∀ (page : List Rec) (a : Agg), aggregatePage page = some a →
      a.page_calories
        = (page.map (fun r => r.calories.getD 0 * (100 / r.serving_size_g.getD 100))).sum ∧
      a.page_fat
        = (page.map (fun r => r.fat_total_g.getD 0 * (100 / r.serving_size_g.getD 100))).sum ∧
      a.page_protein
        = (page.map (fun r => r.protein_g.getD 0 * (100 / r.serving_size_g.getD 100))).sum ∧
      a.page_sugar
        = (page.map (fun r => r.sugar_g.getD 0 * (100 / r.serving_size_g.getD 100))).sum) ∧
    (aggregatePage [recA, recB]).map
      (fun a => (a.page_calories, a.serving_size_check, a.mindful_food))
      = some (1000, false, "A") ∧
    (aggregatePage [recA, recB]).map nutritional_advice
      = some (adv_high ++ mindfulMsg "A") := by
  refine ⟨?_, ?_, ?_⟩
  · intro page a h
    have hm := (agg_fold_master page Agg.init a h).1
    simpa [Agg.init] using hm
  · norm_num [aggregatePage, List.foldlM, aggStep, Agg.init, recA, recB, pyStr]
  · norm_num [aggregatePage, List.foldlM, aggStep, Agg.init, recA, recB, pyStr,
      nutritional_advice]

/-- C5 (witness): the sum formula instantiated on the page `[A, B]`. -/
theorem C5_normalization_witness :
    aggAB.page_calories
      = ([recA, recB].map (fun r => r.calories.getD 0 * (100 / r.serving_size_g.getD 100))).sum ∧
    aggAB.page_fat
      = ([recA, recB].map (fun r => r.fat_total_g.getD 0 * (100 / r.serving_size_g.getD 100))).sum ∧
    aggAB.page_protein
      = ([recA, recB].map (fun r => r.protein_g.getD 0 * (100 / r.serving_size_g.getD 100))).sum ∧
    aggAB.page_sugar
      = ([recA, recB].map (fun r => r.sugar_g.getD 0 * (100 / r.serving_size_g.getD 100))).sum :=
  C5_normalization.1 [recA, recB] aggAB
    (by norm_num [aggregatePage, List.foldlM, aggStep, Agg.init, recA, recB, pyStr, aggAB])

/-- C9 (counterexample): a record whose `serving_size_g` is present but 0
makes `factor = 100 / serving_size` raise `ZeroDivisionError`: the page
aggregation fails instead of substituting a default. -/
theorem C9_defaults_counterexample :
    aggregatePage [cexZeroServing] = none := by
  norm_num [aggregatePage, List.foldlM, aggStep, Agg.init, cexZeroServing]

/-- C9 (amended): missing numeric fields are indeed replaced by the
documented defaults (substituting them changes nothing), and the
aggregation — and every command of the session loop — completes without a
fatal error *provided* records are well-formed: effective serving size
non-zero (a present `serving_size_g = 0` raises `ZeroDivisionError`) and
the displayed fields present. -/
theorem C9_defaults_amended :
    (∀ (page : List Rec),
      (∀ r ∈ page, r.serving_size_g.getD 100 ≠ 0 ∧ r.name.isSome = true) →
      (aggregatePage page).isSome = true) ∧
    (∀ (page : List Rec),
      aggregatePage (page.map normalizeRec) = aggregatePage page) ∧
    (∀ (s : Session) (c : Cmd),
      (∀ r ∈ s.data, recOK s.mode r = true) →
      (∀ r, s.display_data = some r → r.name.isSome = true) →
      (step s c).isSome = true) := by
  refine ⟨?_, ?_, ?_⟩
  · intro page h
    exact agg_fold_isSome page Agg.init h
  · intro page
    exact agg_fold_normalize page Agg.init
  · intro s c hdata hdisp
    cases c with
    | n =>
      by_cases hlt : s.current_page < s.total_pages
      · simp only [step, hlt, if_true]
        have hr := render_isSome { s with current_page := s.current_page + 1 } hdata
        cases hrr : Session.render { s with current_page := s.current_page + 1 } with
        | none => rw [hrr] at hr; cases hr
        | some s' => simp
      · simp [step, hlt]
    | p =>
      by_cases hlt : s.current_page > 1
      · simp only [step, hlt, if_true]
        have hr := render_isSome { s with current_page := s.current_page - 1 } hdata
        cases hrr : Session.render { s with current_page := s.current_page - 1 } with
        | none => rw [hrr] at hr; cases hr
        | some s' => simp
      · simp [step, hlt]
    | s =>
      cases hdd : s.display_data with
      | none => simp [step, hdd]
      | some r =>
        have hn := hdisp r hdd
        simp only [step, hdd]
        split_ifs with hguard
        · cases hname : r.name with
          | none => rw [hname] at hn; cases hn
          | some n => simp only [hname]; split_ifs <;> rfl
        · rfl
    | u =>
      cases hdd : s.display_data with
      | none => simp [step, hdd]
      | some r =>
        have hn := hdisp r hdd
        simp only [step, hdd]
        split_ifs with hguard
        · cases hname : r.name with
          | none => rw [hname] at hn; cases hn
          | some n => simp only [hname]; split_ifs <;> rfl
        · rfl
    | e =>
      cases hdd : s.display_data with
      | none => simp [step, hdd]
      | some r =>
        simp only [step, hdd]
        split_ifs <;> rfl
    | m => rfl
    | other => rfl

/-- C9 (witness): on the well-formed page `[A]` the aggregation completes. -/
theorem C9_defaults_witness :
    (aggregatePage [recA]).isSome = true :=
  C9_defaults_amended.1 [recA]
    (by intro r hr
        rw [List.mem_singleton] at hr
        subst hr
        exact ⟨by norm_num [recA], rfl⟩)

/-- C6 (counterexample): `paginate` on an empty result set starts with
`current_page = 1` but `total_pages = 0`, so `current_page` is not in
`[1, total_pages]`. -/
theorem C6_invariant_counterexample :
    (paginateStart [] Mode.exercise 1 [] 0 2000).map Session.current_page = some 1 ∧
    (paginateStart [] Mode.exercise 1 [] 0 2000).map Session.total_pages = some 0 := by
  constructor <;> rfl

/-- C6 (amended): `current_page` starts at 1 and stays in
`[1, max 1 total_pages]` (which is `[1, total_pages]` exactly when the
result set is non-empty); `next()` increments only below `total_pages`,
`previous()` decrements only above 1, no other command changes it, and
`total_pages` never changes. -/
theorem C6_invariant_amended :
    (∀ (data : List Rec) (mode : Mode) (ps : ℕ) (sv : List (String × Rec))
        (con g : ℚ) (s₀ : Session),
      paginateStart data mode ps sv con g = some s₀ →
      s₀.current_page = 1 ∧ 1 ≤ s₀.current_page ∧
      s₀.current_page ≤ max 1 s₀.total_pages) ∧
    (∀ (s : Session) (c : Cmd) (s' : Session) (msg : Msg),
      1 ≤ s.current_page → s.current_page ≤ max 1 s.total_pages →
      step s c = some (s', msg) →
      (1 ≤ s'.current_page ∧ s'.current_page ≤ max 1 s'.total_pages) ∧
      s'.total_pages = s.total_pages ∧
      ((c = Cmd.s ∨ c = Cmd.u ∨ c = Cmd.e ∨ c = Cmd.m ∨ c = Cmd.other) →
        s'.current_page = s.current_page)) := by
  constructor
  · intro data mode ps sv con g s₀ h
    unfold paginateStart at h
    have hp := render_proj _ s₀ h
    have hcp : s₀.current_page = 1 := hp.2.2.2.1
    rw [hcp]
    exact ⟨rfl, le_refl 1, le_max_left 1 _⟩
  · intro s c s' msg h1 h2 h
    cases c with
    | n =>
      by_cases hlt : s.current_page < s.total_pages
      · simp only [step, hlt, if_true] at h
        cases hrr : Session.render { s with current_page := s.current_page + 1 } with
        | none => rw [hrr] at h; cases h
        | some s₁ =>
          rw [hrr] at h
          injection h with h
          injection h with hs hm
          subst hs
          have hp := render_proj _ s₁ hrr
          have hcp : s₁.current_page = s.current_page + 1 := hp.2.2.2.1
          have htp : s₁.total_pages = s.total_pages := hp.2.2.2.2.1
          refine ⟨⟨by omega, ?_⟩, htp, ?_⟩
          · rw [hcp, htp]; omega
          · rintro (hc | hc | hc | hc | hc) <;> simp at hc
      · simp only [step, hlt, if_false] at h
        injection h with h
        injection h with hs hm
        subst hs
        exact ⟨⟨h1, h2⟩, rfl, fun _ => rfl⟩
    | p =>
      by_cases hlt : s.current_page > 1
      · simp only [step, hlt, if_true] at h
        cases hrr : Session.render { s with current_page := s.current_page - 1 } with
        | none => rw [hrr] at h; cases h
        | some s₁ =>
          rw [hrr] at h
          injection h with h
          injection h with hs hm
          subst hs
          have hp := render_proj _ s₁ hrr
          have hcp : s₁.current_page = s.current_page - 1 := hp.2.2.2.1
          have htp : s₁.total_pages = s.total_pages := hp.2.2.2.2.1
          refine ⟨⟨by omega, ?_⟩, htp, ?_⟩
          · rw [hcp, htp]; omega
          · rintro (hc | hc | hc | hc | hc) <;> simp at hc
      · simp only [step, hlt, if_false] at h
        injection h with h
        injection h with hs hm
        subst hs
        exact ⟨⟨h1, h2⟩, rfl, fun _ => rfl⟩
    | s =>
      cases hdd : s.display_data with
      | none =>
        simp only [step, hdd] at h
        injection h with h
        injection h with hs hm
        subst hs
        exact ⟨⟨h1, h2⟩, rfl, fun _ => rfl⟩
      | some r =>
        simp only [step, hdd] at h
        split_ifs at h with hguard
        · cases hname : r.name with
          | none => simp only [hname] at h; cases h
          | some n =>
            simp only [hname] at h
            split_ifs at h with hsav
            · injection h with h
              injection h with hs hm
              subst hs
              exact ⟨⟨h1, h2⟩, rfl, fun _ => rfl⟩
            · injection h with h
              injection h with hs hm
              subst hs
              exact ⟨⟨h1, h2⟩, rfl, fun _ => rfl⟩
        · injection h with h
          injection h with hs hm
          subst hs
          exact ⟨⟨h1, h2⟩, rfl, fun _ => rfl⟩
    | u =>
      cases hdd : s.display_data with
      | none =>
        simp only [step, hdd] at h
        injection h with h
        injection h with hs hm
        subst hs
        exact ⟨⟨h1, h2⟩, rfl, fun _ => rfl⟩
      | some r =>
        simp only [step, hdd] at h
        split_ifs at h with hguard
        · cases hname : r.name with
          | none => simp only [hname] at h; cases h
          | some n =>
            simp only [hname] at h
            split_ifs at h with hsav
            · injection h with h
              injection h with hs hm
              subst hs
              exact ⟨⟨h1, h2⟩, rfl, fun _ => rfl⟩
            · injection h with h
              injection h with hs hm
              subst hs
              exact ⟨⟨h1, h2⟩, rfl, fun _ => rfl⟩
        · injection h with h
          injection h with hs hm
          subst hs
          exact ⟨⟨h1, h2⟩, rfl, fun _ => rfl⟩
    | e =>
      cases hdd : s.display_data with
      | none =>
        simp only [step, hdd] at h
        injection h with h
        injection h with hs hm
        subst hs
        exact ⟨⟨h1, h2⟩, rfl, fun _ => rfl⟩
      | some r =>
        simp only [step, hdd] at h
        split_ifs at h with hguard heat
        · injection h with h
          injection h with hs hm
          subst hs
          exact ⟨⟨h1, h2⟩, rfl, fun _ => rfl⟩
        · injection h with h
          injection h with hs hm
          subst hs
          exact ⟨⟨h1, h2⟩, rfl, fun _ => rfl⟩
        · injection h with h
          injection h with hs hm
          subst hs
          exact ⟨⟨h1, h2⟩, rfl, fun _ => rfl⟩
    | m =>
      simp only [step] at h
      injection h with h
      injection h with hs hm
      subst hs
      exact ⟨⟨h1, h2⟩, rfl, fun _ => rfl⟩
    | other =>
      simp only [step] at h
      injection h with h
      injection h with hs hm
      subst hs
      exact ⟨⟨h1, h2⟩, rfl, fun _ => rfl⟩

/-- C6 (witness): a command that is not navigation leaves `current_page`
where it is, inside the bounds. -/
theorem C6_invariant_witness :
    (1 ≤ wEx.current_page ∧ wEx.current_page ≤ max 1 wEx.total_pages) ∧
    wEx.total_pages = wEx.total_pages ∧
    ((Cmd.other = Cmd.s ∨ Cmd.other = Cmd.u ∨ Cmd.other = Cmd.e ∨
      Cmd.other = Cmd.m ∨ Cmd.other = Cmd.other) →
      wEx.current_page = wEx.current_page) :=
  C6_invariant_amended.2 wEx Cmd.other wEx Msg.invalid (by decide) (by decide) rfl

/-- C7: `next()` on the last page and `previous()` on the first page return
the session state completely unchanged and only report the failure
message. -/
theorem C7_nav_bound_noop (s : Session) :
    (s.current_page = s.total_pages → step s Cmd.n = some (s, Msg.noNext)) ∧
    (s.current_page = 1 → step s Cmd.p = some (s, Msg.noPrev)) := by
  constructor
  · intro h
    simp [step, h]
  · intro h
    simp [step, h]

/-- C7 (witness): both bounds on a one-page session. -/
theorem C7_nav_bound_noop_witness :
    step wNut Cmd.n = some (wNut, Msg.noNext) ∧
    step wNut Cmd.p = some (wNut, Msg.noPrev) :=
  ⟨(C7_nav_bound_noop wNut).1 rfl, (C7_nav_bound_noop wNut).2 rfl⟩

/-- C4: in nutrition mode on a non-empty page, `eat` on an already-eaten
page reports the message without touching the ledger; on a fresh page it
makes exactly one ledger call with the page aggregate calories and marks
the page eaten — so eating the same page twice applies the calories
exactly once. -/
theorem C4_eat_guard (s : Session) (r : Rec)
    (hm : s.mode = Mode.nutrition) (hd : s.display_data = some r)
    (htr : r.isTruthy = true) :
    (s.eaten_pages.contains s.current_page = true →
      step s Cmd.e = some (s, Msg.alreadyEaten)) ∧
    (s.eaten_pages.contains s.current_page = false →
      step s Cmd.e =
        some ({ s with consumed := s.consumed + s.agg.page_calories,
                       ledger_calls := s.ledger_calls ++ [s.agg.page_calories],
                       eaten_pages := s.eaten_pages ++ [s.current_page] },
              Msg.eaten s.agg.page_calories
                (decide (s.consumed + s.agg.page_calories < s.goal)))) ∧
    (s.eaten_pages.contains s.current_page = false →
      ∀ (s₁ : Session) (m₁ : Msg) (s₂ : Session) (m₂ : Msg),
        step s Cmd.e = some (s₁, m₁) → step s₁ Cmd.e = some (s₂, m₂) →
        s₂.ledger_calls = s.ledger_calls ++ [s.agg.page_calories]) := by
  refine ⟨?_, ?_, ?_⟩
  · intro hcont
    have hmem : s.current_page ∈ s.eaten_pages := by simpa using hcont
    simp [step, hd, hm, htr, hmem]
  · intro hcont
    have hmem : s.current_page ∉ s.eaten_pages := by simpa using hcont
    simp [step, hd, hm, htr, hmem]
  · intro hcont s₁ m₁ s₂ m₂ h₁ h₂
    have hmem : s.current_page ∉ s.eaten_pages := by simpa using hcont
    have he : step s Cmd.e =
        some ({ s with consumed := s.consumed + s.agg.page_calories,
                       ledger_calls := s.ledger_calls ++ [s.agg.page_calories],
                       eaten_pages := s.eaten_pages ++ [s.current_page] },
              Msg.eaten s.agg.page_calories
                (decide (s.consumed + s.agg.page_calories < s.goal))) := by
      simp [step, hd, hm, htr, hmem]
    rw [he] at h₁
    injection h₁ with h₁
    injection h₁ with hs₁ hm₁
    subst hs₁
    simp [step, hd, hm, htr] at h₂
    obtain ⟨hs₂, hm₂⟩ := h₂
    subst hs₂
    rfl

/-- C4 (witness): eating the fresh single page of `wNut` makes exactly the
one expected ledger call. -/
theorem C4_eat_guard_witness :
    step wNut Cmd.e =
      some ({ wNut with consumed := wNut.consumed + wNut.agg.page_calories,
                        ledger_calls := wNut.ledger_calls ++ [wNut.agg.page_calories],
                        eaten_pages := wNut.eaten_pages ++ [wNut.current_page] },
            Msg.eaten wNut.agg.page_calories
              (decide (wNut.consumed + wNut.agg.page_calories < wNut.goal))) :=
  (C4_eat_guard wNut recB rfl rfl rfl).2.1 rfl

/-- C8: in exercise mode with a displayed named record, `save` is guarded
by `is_saved` (no write and the already-saved message when true, exactly
one `add_save` when false) and `unsave` symmetrically (no delete and the
not-saved message when false, exactly one `delete_save` when true); in
nutrition mode or on an empty page both commands change nothing. -/
theorem C8_save_guard (s : Session) (r : Rec) (n : String) :
    ((s.mode = Mode.exercise ∧ s.display_data = some r ∧ r.name = some n) →
      (isSaved s.saved n = true →
        step s Cmd.s = some (s, Msg.alreadySaved) ∧
        step s Cmd.u = some ({ s with saved := deleteSave s.saved n,
                                      delete_calls := s.delete_calls ++ [n] },
                             Msg.unsavedOk)) ∧
      (isSaved s.saved n = false →
        step s Cmd.s = some ({ s with saved := addSave s.saved n r,
                                      save_calls := s.save_calls ++ [(n, r)] },
                             Msg.savedOk) ∧
        step s Cmd.u = some (s, Msg.notSaved))) ∧
    (s.mode = Mode.nutrition →
      step s Cmd.s = some (s, Msg.invalid) ∧
      step s Cmd.u = some (s, Msg.invalid)) ∧
    (s.display_data = none →
      step s Cmd.s = some (s, Msg.invalid) ∧
      step s Cmd.u = some (s, Msg.invalid)) := by
  refine ⟨?_, ?_, ?_⟩
  · rintro ⟨hm, hd, hn⟩
    have htr : r.isTruthy = true := by
      simp [Rec.isTruthy, hn]
    constructor
    · intro hsav
      constructor <;> simp [step, hd, hm, htr, hn, hsav]
    · intro hsav
      constructor <;> simp [step, hd, hm, htr, hn, hsav]
  · intro hm
    cases hdd : s.display_data with
    | none => constructor <;> simp [step, hdd]
    | some r' => constructor <;> simp [step, hdd, hm]
  · intro hd
    constructor <;> simp [step, hd]

/-- C8 (witness): saving the already-saved displayed exercise of `wEx`
reports the message and makes no write; unsaving it makes exactly one
delete call. -/
theorem C8_save_guard_witness :
    step wEx Cmd.s = some (wEx, Msg.alreadySaved) ∧
    step wEx Cmd.u = some ({ wEx with saved := deleteSave wEx.saved "Squat",
                                      delete_calls := wEx.delete_calls ++ ["Squat"] },
                           Msg.unsavedOk) :=
  (C8_save_guard wEx recSquat "Squat").1 ⟨rfl, rfl, rfl⟩ |>.1 (by rfl)

/-- C10: after a render, `display_data` is exactly the last record of the
current page slice, and the save/unsave commands query and persist only
that record — its name is what `is_saved` decides on, and the persisted
pair is `(name, display_data)`, never an earlier record of the page. -/
theorem C10_last_record :
    (∀ (s s' : Session), Session.render s = some s' →
      s'.display_data = s.pageSlice.getLast?) ∧
    (∀ (s : Session) (r : Rec) (n : String) (s' : Session) (msg : Msg),
      s.mode = Mode.exercise → s.display_data = some r → r.name = some n →
      step s Cmd.s = some (s', msg) →
      s'.save_calls = s.save_calls ++ (if isSaved s.saved n then [] else [(n, r)]) ∧
      s'.delete_calls = s.delete_calls) ∧
    (∀ (s : Session) (r : Rec) (n : String) (s' : Session) (msg : Msg),
      s.mode = Mode.exercise → s.display_data = some r → r.name = some n →
      step s Cmd.u = some (s', msg) →
      s'.delete_calls = s.delete_calls ++ (if isSaved s.saved n then [n] else []) ∧
      s'.save_calls = s.save_calls) := by
  refine ⟨?_, ?_, ?_⟩
  · intro s s' h
    exact render_display_data s s' h
  · intro s r n s' msg hm hd hn h
    have htr : r.isTruthy = true := by
      simp [Rec.isTruthy, hn]
    simp only [step, hd, hm, htr, hn, and_self, if_true] at h
    split_ifs at h with hsav
    · injection h with h
      injection h with hs hmm
      subst hs
      simp [hsav]
    · injection h with h
      injection h with hs hmm
      subst hs
      simp [hsav]
  · intro s r n s' msg hm hd hn h
    have htr : r.isTruthy = true := by
      simp [Rec.isTruthy, hn]
    simp only [step, hd, hm, htr, hn, and_self, if_true] at h
    split_ifs at h with hsav
    · injection h with h
      injection h with hs hmm
      subst hs
      simp [hsav]
    · injection h with h
      injection h with hs hmm
      subst hs
      simp [hsav]

/-- C10 (witness): on `wEx` (already saved), `save` makes no persistence
write at all. -/
theorem C10_last_record_witness :
    wEx.save_calls = wEx.save_calls ++ (if isSaved wEx.saved "Squat" then [] else [("Squat", recSquat)]) ∧
    wEx.delete_calls = wEx.delete_calls :=
  C10_last_record.2.1 wEx recSquat "Squat" wEx Msg.alreadySaved rfl rfl rfl (by rfl)

end SmokiFit
